import Mathlib

/-!
# Verification of the media-quality-check scoring engine

Shallow embedding of `src/media_quality_check/cli.py`: stream/format metadata
records, the HDR / Dolby-Vision / object-audio classifiers, the video and audio
scorers, the media-score aggregation and the best-file selection, together with
theorems checking the natural-language specification against them.

Numeric JSON values (which ffprobe emits as decimal strings and the Python code
converts with `int`/`float`) are modelled by their exact rational value `ℚ`;
an absent key is `Option.none`.  Python float arithmetic on the small decimal
constants involved is modelled by exact rational arithmetic, and `round(x, 2)`
by round-half-to-even at two decimals.
-/

namespace MediaQualityCheck

/-- One entry of a video stream's `side_data_list`. -/
structure SideData where
  side_data_type : Option String
deriving DecidableEq, Repr

/-- The `disposition` sub-record of a stream (`s.get("disposition", {})`). -/
structure Disposition where
  attached_pic : Option Nat
deriving DecidableEq, Repr

/-- A single ffprobe stream record; fields the CLI reads.  `tags` keeps the
JSON object's insertion order as an association list. -/
structure StreamRec where
  codec_type : Option String := none
  codec_name : Option String := none
  codec_long_name : Option String := none
  profile : Option String := none
  width : Option Nat := none
  pix_fmt : Option String := none
  color_transfer : Option String := none
  bit_rate : Option ℚ := none
  codec_tag_string : Option String := none
  side_data_list : List SideData := []
  disposition : Option Disposition := none
  channels : Option Nat := none
  tags : List (String × String) := []
deriving DecidableEq, Repr

/-- The ffprobe `format` record; fields the CLI reads. -/
structure FormatRec where
  size : Option ℚ := none
  duration : Option ℚ := none
deriving DecidableEq, Repr

/-- Does the first char list start with the second? -/
def charsStartWith : List Char → List Char → Bool
  | _, [] => true
  | [], _ :: _ => false
  | c :: cs, n :: ns => c == n && charsStartWith cs ns

/-- Does the first char list contain the second as a contiguous run? -/
def charsContain : List Char → List Char → Bool
  | [], needle => charsStartWith [] needle
  | c :: cs, needle => charsStartWith (c :: cs) needle || charsContain cs needle

/-- Python's `needle in hay` substring test. -/
def containsSub (hay needle : String) : Bool :=
  charsContain hay.data needle.data

/-- Python `str.startswith`. -/
def strStartsWith (s p : String) : Bool :=
  charsStartWith s.data p.data

/-- Python `str.lower()`; the metadata strings involved are ASCII. -/
def lowerStr (s : String) : String := String.mk (s.data.map Char.toLower)

/-- Python `" ".join(parts)`. -/
def joinSpace : List String → String
  | [] => ""
  | [s] => s
  | s :: rest => s ++ " " ++ joinSpace rest

/-- Python `dict.get` on the `tags` association list. -/
def lookupTag (tags : List (String × String)) (k : String) : Option String :=
  (tags.find? (fun p => p.1 == k)).map (·.2)

/-- `detect_dolby_vision` (cli.py:29-35): any side-data type containing
"dovi" or "dolby vision" (lower-cased), or codec tag `dvh1`/`dvhe`. -/
def detect_dolby_vision (v : StreamRec) : Bool :=
  (v.side_data_list.any fun sd =>
    let sdt := lowerStr (sd.side_data_type.getD "")
    containsSub sdt "dovi" || containsSub sdt "dolby vision") ||
  (let tag := lowerStr (v.codec_tag_string.getD "")
   tag == "dvh1" || tag == "dvhe")

/-- `get_video_bitrate_mbps` (cli.py:38-45): explicit stream bit rate in Mbps
when present, else container size × 8 / duration (default 1 s) / 1e6. -/
def get_video_bitrate_mbps (v : StreamRec) (fmt : FormatRec) : ℚ :=
  match v.bit_rate with
  | some br => br / 1000000
  | none =>
    let size := fmt.size.getD 0
    let duration := fmt.duration.getD 1
    (size * 8) / duration / 1000000

/-- `compute_video_score` (cli.py:48-93): the §4.2 decision table; returns
`(score, bitrate_mbps, verdict)`. -/
def compute_video_score (v : StreamRec) (fmt : FormatRec)
    (is_hdr is_dv : Bool) : ℚ × ℚ × String :=
  let width := v.width.getD 0
  let vbps := get_video_bitrate_mbps v fmt
  if width ≥ 3840 then
    if is_dv || is_hdr then
      if vbps ≥ 15 then (5.0, vbps, "REFERENCE QUALITY")
      else if vbps ≥ 12 then (4.5, vbps, "EXCELLENT")
      else (4.0, vbps, "GOOD")
    else
      if vbps ≥ 20 then (4.5, vbps, "EXCELLENT")
      else (4.0, vbps, "GOOD")
  else if width ≥ 1920 then
    if vbps ≥ 30 then (4.5, vbps, "EXCELLENT")
    else if vbps ≥ 20 then (4.0, vbps, "GOOD")
    else (3.5, vbps, "MEDIUM")
  else if width ≥ 1280 then (3.0, vbps, "MEDIUM")
  else (2.0, vbps, "LOW")

/-- The §4.2 table transcribed from the spec's words: keyed on width bracket,
the combined HDR/Dolby-Vision flag and the bitrate in Mbps, rows top-down. -/
def specVideoTable (width : Nat) (hdrdv : Bool) (mbps : ℚ) : ℚ × String :=
  if width ≥ 3840 then
    if hdrdv then
      if mbps ≥ 15 then (5.0, "REFERENCE QUALITY")
      else if mbps ≥ 12 then (4.5, "EXCELLENT")
      else (4.0, "GOOD")
    else
      if mbps ≥ 20 then (4.5, "EXCELLENT")
      else (4.0, "GOOD")
  else if width ≥ 1920 then
    if mbps ≥ 30 then (4.5, "EXCELLENT")
    else if mbps ≥ 20 then (4.0, "GOOD")
    else (3.5, "MEDIUM")
  else if width ≥ 1280 then (3.0, "MEDIUM")
  else (2.0, "LOW")

/-- `detect_object_audio` (cli.py:98-115): lower-cased concatenation of
codec name, long name, profile and all tag values, searched for the fixed
object-audio markers; returns the flag together with the haystack. -/
def detect_object_audio (a : StreamRec) : Bool × String :=
  let haystack := lowerStr (joinSpace
    [a.codec_name.getD "", a.codec_long_name.getD "", a.profile.getD "",
     joinSpace (a.tags.map (·.2))])
  (["atmos", "dts:x", "dtsx", "dts x", "auro", "auro-3d", "mpeg-h",
    "3d audio"].any (fun k => containsSub haystack k), haystack)

/-- The kbps bitrate read in `compute_audio_score` (cli.py:129-130):
`a.get("bit_rate") or a.get("tags", {}).get("BPS")`, then `/ 1000`, else 0.
The `BPS` tag value is a decimal digit string; its numeric value is taken. -/
def audioBitrateKbps (a : StreamRec) : ℚ :=
  match a.bit_rate with
  | some br => br / 1000
  | none =>
    match (lookupTag a.tags "BPS").bind String.toNat? with
    | some n => (n : ℚ) / 1000
    | none => 0

/-- The lossless test of the `compute_audio_score` loop (cli.py:133-136):
codec `truehd`, or a `dts*` codec whose (lower-cased) profile contains
"hd". -/
def audioIsLossless (codec profile : String) : Bool :=
  codec == "truehd" || (strStartsWith codec "dts" && containsSub profile "hd")

/-- The base score of the loop (cli.py:138-172) from the loop's local
variables `codec`, `ch`, lower-cased `profile` and `br_kbps`. -/
def audioBaseScore (codec : String) (ch : Nat) (profile : String)
    (br_kbps : ℚ) : ℚ :=
  if audioIsLossless codec profile then 5.0
  else if codec == "eac3" then
    if br_kbps ≥ 640 then 4.6
    else if br_kbps ≥ 448 then 4.2
    else if br_kbps ≥ 384 then 3.8
    else if br_kbps ≥ 256 then 3.3
    else 2.4
  else if codec == "ac3" then
    if br_kbps ≥ 640 then 3.8
    else if br_kbps ≥ 448 then 3.4
    else 3.0
  else if codec == "aac" then
    if ch ≥ 6 ∧ br_kbps ≥ 384 then 3.0
    else if ch ≥ 2 then 2.4
    else 2.0
  else 2.0

/-- The loop body of `compute_audio_score` (cli.py:125-189) over the loop's
local variables, before the `min(score, 5.0)` clamp: base score, then the
channel bonus (cli.py:174-179), then the object-audio bonus
(cli.py:181-189). -/
def audioLoopScore (codec : String) (ch : Nat) (profile : String)
    (br_kbps : ℚ) (is_object : Bool) : ℚ :=
  let base := audioBaseScore codec ch profile br_kbps
  let withCh : ℚ :=
    if ch ≥ 8 then base + 0.2
    else if ch ≥ 6 then base + 0.1
    else base
  if is_object then
    if audioIsLossless codec profile then withCh
    else if codec == "eac3" ∧ br_kbps ≥ 448 then withCh + 0.15
    else if strStartsWith codec "dts" ∧ br_kbps ≥ 1500 then withCh + 0.15
    else withCh
  else withCh

/-- The per-stream score of the `compute_audio_score` loop body on a stream
record, before the clamp: the loop's local variables are read off the record
exactly as in cli.py:125-132. -/
def audioStreamScoreRaw (a : StreamRec) : ℚ :=
  audioLoopScore (a.codec_name.getD "") (a.channels.getD 0)
    (lowerStr (a.profile.getD "")) (audioBitrateKbps a)
    (detect_object_audio a).1

/-- `compute_audio_score` (cli.py:118-193): fold over the streams, skipping
non-audio ones, keeping the maximum clamped per-stream score, starting at 0. -/
def compute_audio_score (streams : List StreamRec) : ℚ :=
  streams.foldl
    (fun best a =>
      if a.codec_type == some "audio"
      then max best (min (audioStreamScoreRaw a) 5.0)
      else best) 0

/-- §4.3's lossless wording: `truehd`, or any `dts*` codec whose profile
contains "hd". -/
def specIsLossless (codec profile : String) : Bool :=
  codec == "truehd" || (strStartsWith codec "dts" && containsSub profile "hd")

/-- §4.3's base-score tiers transcribed from the spec's words. -/
def specAudioBase (codec : String) (ch : Nat) (profile : String)
    (kbps : ℚ) : ℚ :=
  if specIsLossless codec profile then 5.0
  else if codec == "eac3" then
    if kbps ≥ 640 then 4.6 else if kbps ≥ 448 then 4.2
    else if kbps ≥ 384 then 3.8 else if kbps ≥ 256 then 3.3 else 2.4
  else if codec == "ac3" then
    if kbps ≥ 640 then 3.8 else if kbps ≥ 448 then 3.4 else 3.0
  else if codec == "aac" then
    if ch ≥ 6 ∧ kbps ≥ 384 then 3.0 else if ch ≥ 2 then 2.4 else 2.0
  else 2.0

/-- The §4.3 per-stream reference definition, transcribed from the spec's
words, over the same components: the base, plus a mutually exclusive channel
bonus, plus an object-audio bonus gated on markers, codec and bitrate and
skipped entirely for lossless streams, the sum clamped to at most 5.0. -/
def specAudioScoreCore (codec : String) (ch : Nat) (profile : String)
    (kbps : ℚ) (is_object : Bool) : ℚ :=
  let base := specAudioBase codec ch profile kbps
  let chBonus : ℚ := if ch ≥ 8 then 0.2 else if ch ≥ 6 then 0.1 else 0
  let objBonus : ℚ :=
    if is_object ∧ ¬specIsLossless codec profile ∧
        ((codec == "eac3" ∧ kbps ≥ 448) ∨
         (strStartsWith codec "dts" ∧ kbps ≥ 1500)) then 0.15 else 0
  min (base + chBonus + objBonus) 5.0

/-- The §4.3 reference per-stream score of a stream record. -/
def specAudioStreamScore (a : StreamRec) : ℚ :=
  specAudioScoreCore (a.codec_name.getD "") (a.channels.getD 0)
    (lowerStr (a.profile.getD "")) (audioBitrateKbps a)
    (detect_object_audio a).1

/-- The qualifying video streams of a file (cli.py:213-217): codec type
`video` and not an attached picture. -/
def videoStreamsOf (streams : List StreamRec) : List StreamRec :=
  streams.filter fun s =>
    s.codec_type == some "video" &&
    ((s.disposition.getD ⟨none⟩).attached_pic.getD 0 != 1)

/-- Per-stream HDR transfer test of the classification loop (cli.py:233):
`color_transfer ∈ {smpte2084, arib-std-b67}`. -/
def isHdrTransfer (v : StreamRec) : Bool :=
  let t := v.color_transfer.getD ""
  t == "smpte2084" || t == "arib-std-b67"

/-- The per-stream label assigned in the loop (cli.py:229-237):
Dolby Vision > HDR > SDR. -/
def streamHdrLabel (v : StreamRec) : String :=
  if detect_dolby_vision v then "Dolby Vision"
  else if isHdrTransfer v then "HDR"
  else "SDR"

/-- Per-stream Dolby-Vision classification (the loop sets `is_dv` for it). -/
def isDvStream (v : StreamRec) : Bool := detect_dolby_vision v

/-- Per-stream HDR classification (the loop sets `is_hdr` for it): Dolby
Vision, or an HDR transfer characteristic. -/
def isHdrStream (v : StreamRec) : Bool :=
  detect_dolby_vision v || isHdrTransfer v

/-- The `is_hdr` flag after the loop (cli.py:220-237): true iff some
qualifying video stream classifies as HDR. -/
def fileHdrFlag (streams : List StreamRec) : Bool :=
  (videoStreamsOf streams).any isHdrStream

/-- The `is_dv` flag after the loop: true iff some qualifying video stream
classifies as Dolby Vision. -/
def fileDvFlag (streams : List StreamRec) : Bool :=
  (videoStreamsOf streams).any isDvStream

/-- Python `max(video_streams, key=lambda x: x.get("width", 0))`
(cli.py:246): first stream of maximal width; `none` on the empty list, where
Python raises `ValueError`. -/
def maxByWidth : List StreamRec → Option StreamRec
  | [] => none
  | x :: xs =>
    some (xs.foldl (fun b s => if s.width.getD 0 > b.width.getD 0 then s else b) x)

/-- The `(video_score, video_bitrate, video_verdict)` produced by
`analyze_file` for a file's streams and format (cli.py:219-247):
`compute_video_score` on the widest qualifying stream with the
loop-accumulated HDR/DV flags; `none` when Python would raise on
`max` of the empty stream list. -/
def fileVideoResult (streams : List StreamRec) (fmt : FormatRec) :
    Option (ℚ × ℚ × String) :=
  (maxByWidth (videoStreamsOf streams)).map fun best =>
    compute_video_score best fmt (fileHdrFlag streams) (fileDvFlag streams)

/-- Round half to even, Python's `round` on an exact tie. -/
def roundHalfEven (q : ℚ) : ℤ :=
  let f := Int.floor q
  if q - f < 1/2 then f
  else if q - f > 1/2 then f + 1
  else if f % 2 = 0 then f else f + 1

/-- Python `round(x, 2)` modelled on exact rationals. -/
def pyRound2 (q : ℚ) : ℚ := (roundHalfEven (q * 100) : ℚ) / 100

/-- `media_score` (cli.py:277):
`round(min(video_score * 0.7 + audio_score * 0.3, 5.0), 2)`. -/
def media_score (video_score audio_score : ℚ) : ℚ :=
  pyRound2 (min (video_score * 0.7 + audio_score * 0.3) 5.0)

/-- The way `analyze_file` can abort: `max` over an empty list of qualifying
video streams raises `ValueError` (cli.py:246). -/
inductive AnalyzeError where
  | emptyVideoMax
deriving DecidableEq, Repr

/-- The scoring part of `analyze_file` on an existing file (cli.py:208-278):
returns the `(media_score, video_bitrate_mbps)` pair recorded in
`FILE_MEDIA_SCORE`, or the error modelling the uncaught `ValueError`. -/
def analyzeExisting (streams : List StreamRec) (fmt : FormatRec) :
    Except AnalyzeError (ℚ × ℚ) :=
  match fileVideoResult streams fmt with
  | none => .error .emptyVideoMax
  | some r =>
    let audio_score :=
      compute_audio_score (streams.filter (·.codec_type == some "audio"))
    .ok (media_score r.1 audio_score, r.2.1)

/-- One command-line input: its path, whether the path exists on disk
(`Path.exists`, cli.py:200), and the metadata ffprobe would report. -/
structure FileInput where
  path : String
  onDisk : Bool
  streams : List StreamRec
  format : FormatRec

/-- `analyze_file` (cli.py:198-282): a missing path returns without touching
the score map (`.ok none`); an existing file either records its pair or
propagates the exception. -/
def analyzeFile (f : FileInput) : Except AnalyzeError (Option (ℚ × ℚ)) :=
  if f.onDisk then (analyzeExisting f.streams f.format).map some
  else .ok none

/-- Python dict assignment `d[k] = v`: update in place, else append. -/
def dictInsert : List (String × ℚ × ℚ) → String → ℚ × ℚ → List (String × ℚ × ℚ)
  | [], k, v => [(k, v)]
  | (k', v') :: rest, k, v =>
    if k' = k then (k, v) :: rest else (k', v') :: dictInsert rest k v

/-- The `for f in sys.argv[1:]` loop of `main` (cli.py:290-291) threading the
`FILE_MEDIA_SCORE` dict: skipped files leave it unchanged, an uncaught
exception aborts the run. -/
def runFilesAux (acc : List (String × ℚ × ℚ)) :
    List FileInput → Except AnalyzeError (List (String × ℚ × ℚ))
  | [] => .ok acc
  | f :: fs =>
    match analyzeFile f with
    | .error e => .error e
    | .ok none => runFilesAux acc fs
    | .ok (some r) => runFilesAux (dictInsert acc f.path r) fs

/-- The whole analysis loop starting from the empty score map. -/
def runFiles (fs : List FileInput) : Except AnalyzeError (List (String × ℚ × ℚ)) :=
  runFilesAux [] fs

/-- Python tuple comparison `(a, b) > (c, d)` on the `(media_score, vbps)`
keys. -/
def lexGt (x y : ℚ × ℚ) : Prop :=
  y.1 < x.1 ∨ (x.1 = y.1 ∧ y.2 < x.2)

instance (x y : ℚ × ℚ) : Decidable (lexGt x y) := by
  unfold lexGt; infer_instance

/-- Non-strict lexicographic order on the selection keys. -/
def lexLe (x y : ℚ × ℚ) : Prop :=
  x.1 < y.1 ∨ (x.1 = y.1 ∧ x.2 ≤ y.2)

/-- `max(FILE_MEDIA_SCORE.items(), key=lambda x: (x[1][0], x[1][1]))`
(cli.py:294-297): first entry with lexicographically maximal
`(media_score, video_bitrate)`; `none` on an empty map, where Python
raises. -/
def bestEntry : List (String × ℚ × ℚ) → Option (String × ℚ × ℚ)
  | [] => none
  | x :: xs => some (xs.foldl (fun b e => if lexGt e.2 b.2 then e else b) x)

/-! ## Sample records used by witnesses and counterexamples -/

/-- Sample: a 3840-wide Dolby-Vision-tagged video stream at 16 Mbps. -/
def sampleDvStream : StreamRec :=
  { codec_type := some "video", width := some 3840,
    codec_tag_string := some "dvh1", bit_rate := some 16000000 }

/-- Sample: a 3840-wide SDR video stream at 16 Mbps. -/
def sampleSdrStream : StreamRec :=
  { codec_type := some "video", width := some 3840, bit_rate := some 16000000 }

/-- Sample: a 640-wide HDR10 (smpte2084) video stream, no Dolby Vision. -/
def sampleSmallHdrStream : StreamRec :=
  { codec_type := some "video", width := some 640,
    color_transfer := some "smpte2084", bit_rate := some 16000000 }

/-- Sample: a stereo eac3 track at 640 kbps, no object-audio markers. -/
def sampleEac3Stream : StreamRec :=
  { codec_type := some "audio", codec_name := some "eac3",
    channels := some 2, bit_rate := some 640000 }

/-- Sample: a video stream lacking both an explicit bit rate field and a
container duration. -/
def sampleNoBitrateStream : StreamRec :=
  { codec_type := some "video", width := some 1920 }

/-! ## C1: the video scorer follows the §4.2 decision table -/

/-- C1: for every video stream and container format record, the video scorer
returns the (score, verdict) pair of the §4.2 decision table keyed on width
bracket, the combined HDR/Dolby-Vision flag and the derived Mbps bitrate,
thresholds top-down; in particular width ≥ 3840 with the flag set and
bitrate ≥ 15 gives 5.0 / REFERENCE QUALITY, and width below 1280 gives
2.0 / LOW. -/
theorem video_score_matches_spec_table (v : StreamRec) (fmt : FormatRec)
    (is_hdr is_dv : Bool) :
    (compute_video_score v fmt is_hdr is_dv =
      ((specVideoTable (v.width.getD 0) (is_dv || is_hdr)
          (get_video_bitrate_mbps v fmt)).1,
        get_video_bitrate_mbps v fmt,
        (specVideoTable (v.width.getD 0) (is_dv || is_hdr)
          (get_video_bitrate_mbps v fmt)).2)) ∧
    (v.width.getD 0 ≥ 3840 → (is_dv || is_hdr) = true →
      get_video_bitrate_mbps v fmt ≥ 15 →
      compute_video_score v fmt is_hdr is_dv =
        (5.0, get_video_bitrate_mbps v fmt, "REFERENCE QUALITY")) ∧
    (v.width.getD 0 < 1280 →
      compute_video_score v fmt is_hdr is_dv =
        (2.0, get_video_bitrate_mbps v fmt, "LOW")) := by
  refine ⟨?_, ?_, ?_⟩
  · simp only [compute_video_score, specVideoTable]
    split_ifs <;> rfl
  · intro hw hflag hbr
    simp only [compute_video_score]
    split_ifs
    rfl
  · intro hw
    simp only [compute_video_score]
    split_ifs <;> first | rfl | omega

/-- Witness for C1 at the spec's scenario: a 3840-wide Dolby-Vision stream at
16 Mbps scores 5.0 / REFERENCE QUALITY, and a 640-wide stream scores
2.0 / LOW. -/
theorem video_score_matches_spec_table_witness :
    compute_video_score sampleDvStream {} true true =
      (5.0, 16, "REFERENCE QUALITY") ∧
    compute_video_score sampleSmallHdrStream {} true false =
      (2.0, 16, "LOW") := by
  have h16a : get_video_bitrate_mbps sampleDvStream {} = 16 := by
    norm_num [get_video_bitrate_mbps, sampleDvStream]
  have h16b : get_video_bitrate_mbps sampleSmallHdrStream {} = 16 := by
    norm_num [get_video_bitrate_mbps, sampleSmallHdrStream]
  constructor
  · have h := (video_score_matches_spec_table sampleDvStream {} true true).2.1
    rw [h16a] at h
    exact h (by norm_num [sampleDvStream]) (by norm_num) (by norm_num)
  · have h := (video_score_matches_spec_table sampleSmallHdrStream {} true false).2.2
    rw [h16b] at h
    exact h (by norm_num [sampleSmallHdrStream])

/-! ## C3: bitrate derivation and its fallback -/

/-- C3: the video bitrate in Mbps is the stream's explicit bit rate divided
by 1e6 when present, else container size × 8 divided by the duration and by
1e6, a missing duration being replaced by 1 second so the fallback divisor is
never zero. -/
theorem video_bitrate_spec (v : StreamRec) (fmt : FormatRec) :
    (∀ br, v.bit_rate = some br →
      get_video_bitrate_mbps v fmt = br / 1000000) ∧
    (v.bit_rate = none →
      get_video_bitrate_mbps v fmt =
        (fmt.size.getD 0 * 8) / (fmt.duration.getD 1) / 1000000 ∧
      (fmt.duration = none → fmt.duration.getD 1 = 1 ∧ fmt.duration.getD 1 ≠ 0)) := by
  refine ⟨fun br hbr => ?_, fun hnone => ⟨?_, fun hdur => ?_⟩⟩
  · simp [get_video_bitrate_mbps, hbr]
  · simp [get_video_bitrate_mbps, hnone]
  · simp [hdur]

/-- Witness for C3: a stream with no bit rate in a 1-GB container with no
duration gets the fallback bitrate 8000 Mbps (size × 8 / 1 s / 1e6). -/
theorem video_bitrate_spec_witness :
    get_video_bitrate_mbps sampleNoBitrateStream { size := some 1000000000 } =
      8000 := by
  have h := (video_bitrate_spec sampleNoBitrateStream
    { size := some 1000000000 }).2 rfl
  rw [h.1]
  norm_num

/-! ## C4: Dolby Vision implies HDR, label precedence -/

/-- C4: every stream classified Dolby Vision is classified HDR, the converse
fails (witnessed by an HDR10 stream), and the label follows the precedence
Dolby Vision > HDR (smpte2084 / arib-std-b67 transfer) > SDR. -/
theorem dv_implies_hdr_and_label_precedence (v : StreamRec) :
    (isDvStream v = true → isHdrStream v = true) ∧
    (streamHdrLabel v = "Dolby Vision" ↔ isDvStream v = true) ∧
    (isDvStream v = false →
      (streamHdrLabel v = "HDR" ↔ isHdrTransfer v = true)) ∧
    (streamHdrLabel v = "SDR" ↔
      (isDvStream v = false ∧ isHdrTransfer v = false)) ∧
    (isHdrStream sampleSmallHdrStream = true ∧
      isDvStream sampleSmallHdrStream = false) := by
  refine ⟨?_, ?_, ?_, ?_, ?_, ?_⟩
  · intro h
    simp [isHdrStream, isDvStream] at h ⊢
    exact Or.inl h
  · unfold streamHdrLabel isDvStream
    split_ifs with h1 h2 <;> simp_all
  · intro hdv
    unfold streamHdrLabel
    unfold isDvStream at hdv
    split_ifs with h1 h2 <;> simp_all
  · unfold streamHdrLabel isDvStream
    split_ifs with h1 h2 <;> simp_all
  · simp [isHdrStream, isHdrTransfer, detect_dolby_vision, sampleSmallHdrStream,
      containsSub, lowerStr]
  · simp [isDvStream, detect_dolby_vision, sampleSmallHdrStream, containsSub,
      lowerStr]

/-- Witness for C4: the Dolby-Vision-tagged sample stream is classified both
Dolby Vision and HDR, and its label is "Dolby Vision". -/
theorem dv_implies_hdr_and_label_precedence_witness :
    isDvStream sampleDvStream = true ∧ isHdrStream sampleDvStream = true ∧
    streamHdrLabel sampleDvStream = "Dolby Vision" := by
  have hdv : isDvStream sampleDvStream = true := by
    simp [isDvStream, detect_dolby_vision, sampleDvStream, containsSub, lowerStr]
  have h := dv_implies_hdr_and_label_precedence sampleDvStream
  exact ⟨hdv, h.1 hdv, h.2.1.mpr hdv⟩

/-! ## C7: composite media score -/

/-- C7: the media score is `round(min(video × 0.7 + audio × 0.3, 5.0), 2)`
(modelled in exact rational arithmetic), and video 5.0 with audio 4.6 gives
4.88. -/
theorem media_score_formula :
    (∀ video_score audio_score : ℚ,
      media_score video_score audio_score =
        pyRound2 (min (video_score * 0.7 + audio_score * 0.3) 5.0)) ∧
    media_score 5.0 4.6 = 4.88 := by
  refine ⟨fun _ _ => rfl, ?_⟩
  norm_num [media_score, pyRound2, roundHalfEven]

/-! ## C5: per-stream audio score matches §4.3 -/

/-- The spec's base tiers and lossless test coincide with the code's. -/
theorem specAudioBase_eq_code (codec : String) (ch : Nat) (profile : String)
    (kbps : ℚ) :
    specAudioBase codec ch profile kbps = audioBaseScore codec ch profile kbps := rfl

set_option maxHeartbeats 1600000 in
/-- Over the loop's local variables, the clamped loop score equals the §4.3
reference definition. -/
theorem audio_core_matches_spec (codec : String) (ch : Nat) (profile : String)
    (kbps : ℚ) (obj : Bool) :
    min (audioLoopScore codec ch profile kbps obj) 5.0 =
      specAudioScoreCore codec ch profile kbps obj := by
  have hloss : specIsLossless codec profile = audioIsLossless codec profile := rfl
  simp only [audioLoopScore, specAudioScoreCore, specAudioBase_eq_code, hloss]
  generalize audioBaseScore codec ch profile kbps = base
  split_ifs <;> first | rfl | tauto | norm_num

/-- C5: for every audio stream, the per-stream score (clamped to 5.0) equals
the §4.3 reference definition: lossless base 5.0, bitrate/channel tiers for
eac3/ac3/aac with a 2.0 floor otherwise, a mutually exclusive channel bonus
(+0.2 for ≥ 8 channels else +0.1 for ≥ 6), and a +0.15 object-audio bonus
only for marker-bearing eac3 ≥ 448 kbps or dts* ≥ 1500 kbps streams that are
not lossless. -/
theorem audio_stream_score_matches_spec (a : StreamRec) :
    min (audioStreamScoreRaw a) 5.0 = specAudioStreamScore a :=
  audio_core_matches_spec (a.codec_name.getD "") (a.channels.getD 0)
    (lowerStr (a.profile.getD "")) (audioBitrateKbps a)
    (detect_object_audio a).1

/-! ## C6: the file's audio score is the maximum per-stream score -/

/-- The audio-score fold over any initial accumulator equals the fold of
`max` over the clamped scores of the audio streams. -/
theorem compute_audio_score_aux_eq (streams : List StreamRec) (q : ℚ) :
    streams.foldl (fun best a =>
      if a.codec_type == some "audio"
      then max best (min (audioStreamScoreRaw a) 5.0) else best) q =
    ((streams.filter (fun s => s.codec_type == some "audio")).map
      (fun a => min (audioStreamScoreRaw a) 5.0)).foldl max q := by
  induction streams generalizing q with
  | nil => rfl
  | cons a rest ih =>
    rw [List.foldl_cons, List.filter_cons]
    by_cases h : (a.codec_type == some "audio") = true
    · rw [if_pos h, if_pos h, List.map_cons, List.foldl_cons]
      exact ih _
    · rw [if_neg h, if_neg h]
      exact ih q

/-- The initial accumulator is a lower bound of a `max` fold. -/
theorem le_foldl_max (l : List ℚ) (q : ℚ) : q ≤ l.foldl max q := by
  induction l generalizing q with
  | nil => exact le_refl q
  | cons x xs ih => exact le_trans (le_max_left q x) (ih (max q x))

/-- Every member is a lower bound of a `max` fold. -/
theorem mem_le_foldl_max (l : List ℚ) (q x : ℚ) : x ∈ l → x ≤ l.foldl max q := by
  induction l generalizing q with
  | nil => intro hx; cases hx
  | cons y ys ih =>
    intro hx
    rw [List.foldl_cons]
    rcases List.mem_cons.mp hx with h | h
    · subst h
      exact le_trans (le_max_right q x) (le_foldl_max ys (max q x))
    · exact ih (max q y) h

/-- A `max` fold returns its initial accumulator or some member. -/
theorem foldl_max_eq_init_or_mem (l : List ℚ) (q : ℚ) :
    l.foldl max q = q ∨ l.foldl max q ∈ l := by
  induction l generalizing q with
  | nil => exact Or.inl rfl
  | cons x xs ih =>
    rcases ih (max q x) with h | h
    · rcases max_choice q x with hq | hx
      · exact Or.inl (by rw [List.foldl_cons, h, hq])
      · exact Or.inr (by rw [List.foldl_cons, h, hx]; exact List.mem_cons_self x xs)
    · exact Or.inr (List.mem_cons_of_mem x h)

/-- C6: the file's audio score is the `max`-fold of the clamped per-stream
scores of its audio streams; every audio stream's score is a lower bound
(no combination exceeds nor is dragged below the best single track), adding
a stream never lowers the score, and the score is 0 or attained by one of
the audio streams. -/
theorem audio_score_is_max_of_stream_scores (streams : List StreamRec) :
    (compute_audio_score streams =
      ((streams.filter (fun s => s.codec_type == some "audio")).map
        (fun a => min (audioStreamScoreRaw a) 5.0)).foldl max 0) ∧
    (∀ a ∈ streams, a.codec_type = some "audio" →
      min (audioStreamScoreRaw a) 5.0 ≤ compute_audio_score streams) ∧
    (∀ b, compute_audio_score streams ≤ compute_audio_score (streams ++ [b])) ∧
    (compute_audio_score streams = 0 ∨
      ∃ a ∈ streams, a.codec_type = some "audio" ∧
        compute_audio_score streams = min (audioStreamScoreRaw a) 5.0) := by
  have hfold := compute_audio_score_aux_eq streams 0
  refine ⟨hfold, ?_, ?_, ?_⟩
  · intro a ha htype
    rw [show compute_audio_score streams = _ from hfold]
    refine mem_le_foldl_max _ 0 _ ?_
    exact List.mem_map_of_mem _ (List.mem_filter.mpr ⟨ha, by simp [htype]⟩)
  · intro b
    unfold compute_audio_score
    rw [List.foldl_append]
    by_cases h : (b.codec_type == some "audio") = true
    · simp only [List.foldl_cons, List.foldl_nil, h, if_pos]
      exact le_max_left _ _
    · simp only [List.foldl_cons, List.foldl_nil, h, if_neg]
      simp [h]
  · rw [show compute_audio_score streams = _ from hfold]
    rcases foldl_max_eq_init_or_mem ((streams.filter
      (fun s => s.codec_type == some "audio")).map
      (fun a => min (audioStreamScoreRaw a) 5.0)) 0 with h | h
    · exact Or.inl h
    · rcases List.mem_map.mp h with ⟨a, hmem, heq⟩
      rcases List.mem_filter.mp hmem with ⟨ha, htype⟩
      exact Or.inr ⟨a, ha, by simpa using htype, heq.symm⟩

/-- Witness for C6 at the spec's scenario: a file whose only audio stream is
stereo eac3 at 640 kbps has audio score 4.6, which is also a lower bound per
the main theorem. -/
theorem audio_score_is_max_witness :
    compute_audio_score [sampleEac3Stream] = 4.6 ∧
    min (audioStreamScoreRaw sampleEac3Stream) 5.0 ≤
      compute_audio_score [sampleEac3Stream] := by
  have hbr : audioBitrateKbps sampleEac3Stream = 640 := by
    norm_num [audioBitrateKbps, sampleEac3Stream]
  have h1 : sampleEac3Stream.codec_name.getD "" = "eac3" := rfl
  have h2 : sampleEac3Stream.channels.getD 0 = 2 := rfl
  have h3 : lowerStr (sampleEac3Stream.profile.getD "") = "" := by decide
  have h4 : (detect_object_audio sampleEac3Stream).1 = false := by decide
  have h5 : audioIsLossless "eac3" "" = false := by decide
  have hscore : min (audioStreamScoreRaw sampleEac3Stream) 5.0 = 4.6 := by
    rw [audioStreamScoreRaw, h1, h2, h3, h4, hbr]
    norm_num [audioLoopScore, audioBaseScore, h5]
  have h := (audio_score_is_max_of_stream_scores [sampleEac3Stream]).2.1
    sampleEac3Stream (List.mem_singleton.mpr rfl) rfl
  constructor
  · unfold compute_audio_score
    rw [List.foldl_cons, List.foldl_nil,
      if_pos (by decide : (sampleEac3Stream.codec_type == some "audio") = true),
      hscore]
    norm_num
  · exact h

/-! ## C8: best-file selection is lexicographic on (media_score, bitrate) -/

/-- `lexLe` is reflexive. -/
theorem lexLe_refl (x : ℚ × ℚ) : lexLe x x := Or.inr ⟨rfl, le_refl _⟩

/-- `lexLe` is transitive. -/
theorem lexLe_trans {x y z : ℚ × ℚ} (h1 : lexLe x y) (h2 : lexLe y z) :
    lexLe x z := by
  rcases h1 with h1 | ⟨e1, l1⟩ <;> rcases h2 with h2 | ⟨e2, l2⟩
  · exact Or.inl (lt_trans h1 h2)
  · exact Or.inl (e2 ▸ h1)
  · exact Or.inl (lt_of_eq_of_lt e1 h2)
  · exact Or.inr ⟨e1.trans e2, le_trans l1 l2⟩

/-- A failed strict comparison yields the non-strict one the other way. -/
theorem lexLe_of_not_lexGt {x y : ℚ × ℚ} (h : ¬ lexGt x y) : lexLe x y := by
  unfold lexGt at h
  push_neg at h
  rcases lt_trichotomy x.1 y.1 with hlt | heq | hgt
  · exact Or.inl hlt
  · exact Or.inr ⟨heq, h.2 heq⟩
  · exact absurd hgt (not_lt.mpr h.1)

/-- A successful strict comparison yields the non-strict one. -/
theorem lexLe_of_lexGt {x y : ℚ × ℚ} (h : lexGt x y) : lexLe y x := by
  rcases h with h | ⟨e, l⟩
  · exact Or.inl h
  · exact Or.inr ⟨e.symm, le_of_lt l⟩

/-- The `max` fold of `bestEntry` returns the initial entry or a member. -/
theorem bestFold_mem (xs : List (String × ℚ × ℚ)) (x : String × ℚ × ℚ) :
    xs.foldl (fun b e => if lexGt e.2 b.2 then e else b) x ∈ x :: xs := by
  induction xs generalizing x with
  | nil => exact List.mem_singleton.mpr rfl
  | cons e es ih =>
    rw [List.foldl_cons]
    by_cases hc : lexGt e.2 x.2
    · rw [if_pos hc]
      rcases List.mem_cons.mp (ih e) with h | h
      · rw [h]
        exact List.mem_cons_of_mem x (List.mem_cons_self e es)
      · exact List.mem_cons_of_mem x (List.mem_cons_of_mem e h)
    · rw [if_neg hc]
      rcases List.mem_cons.mp (ih x) with h | h
      · rw [h]
        exact List.mem_cons_self x (e :: es)
      · exact List.mem_cons_of_mem x (List.mem_cons_of_mem e h)

/-- Every entry seen by the `bestEntry` fold is `lexLe` its result. -/
theorem bestFold_ub (xs : List (String × ℚ × ℚ)) (x : String × ℚ × ℚ) :
    ∀ y ∈ x :: xs,
      lexLe y.2 (xs.foldl (fun b e => if lexGt e.2 b.2 then e else b) x).2 := by
  induction xs generalizing x with
  | nil =>
    intro y hy
    rcases List.mem_singleton.mp hy with rfl
    exact lexLe_refl _
  | cons e es ih =>
    intro y hy
    rw [List.foldl_cons]
    have hxb : lexLe x.2 (if lexGt e.2 x.2 then e else x).2 := by
      by_cases hc : lexGt e.2 x.2
      · rw [if_pos hc]; exact lexLe_of_lexGt hc
      · rw [if_neg hc]; exact lexLe_refl _
    have heb : lexLe e.2 (if lexGt e.2 x.2 then e else x).2 := by
      by_cases hc : lexGt e.2 x.2
      · rw [if_pos hc]; exact lexLe_refl _
      · rw [if_neg hc]; exact lexLe_of_not_lexGt hc
    have hrec := ih (if lexGt e.2 x.2 then e else x)
    have hhead := hrec _ (List.mem_cons_self _ es)
    rcases List.mem_cons.mp hy with h | h
    · subst h
      exact lexLe_trans hxb hhead
    · rcases List.mem_cons.mp h with h2 | h2
      · subst h2
        exact lexLe_trans heb hhead
      · exact hrec y (List.mem_cons_of_mem _ h2)

/-- C8: when `bestEntry` selects an entry, that entry is in the map and its
`(media_score, video_bitrate)` key is a lexicographic maximum; in particular
any entry with the same media score has a bitrate no higher than the
selected one. -/
theorem best_entry_lex_maximal (m : List (String × ℚ × ℚ))
    (e : String × ℚ × ℚ) (h : bestEntry m = some e) :
    e ∈ m ∧ (∀ x ∈ m, lexLe x.2 e.2) ∧
    (∀ x ∈ m, x.2.1 = e.2.1 → x.2.2 ≤ e.2.2) := by
  match m with
  | [] => cases h
  | x :: xs =>
    have he : xs.foldl (fun b e => if lexGt e.2 b.2 then e else b) x = e := by
      injection h
    refine ⟨he ▸ bestFold_mem xs x, fun y hy => he ▸ bestFold_ub xs x y hy,
      fun y hy heq => ?_⟩
    rcases he ▸ bestFold_ub xs x y hy with hlt | ⟨_, hle⟩
    · exact absurd (heq ▸ hlt) (lt_irrefl _)
    · exact hle

/-- The score map of the spec's tie-break scenario: equal media scores 4.5,
bitrates 18 and 22 Mbps. -/
def sampleScoreMap : List (String × ℚ × ℚ) :=
  [("first.mkv", 4.5, 18), ("second.mkv", 4.5, 22)]

/-- Witness for C8 at the spec's scenario: with equal media scores 4.5 and
bitrates 18 vs 22, the 22-Mbps file is selected, and both entries are
`lexLe` it. -/
theorem best_entry_lex_maximal_witness :
    ("second.mkv", (4.5 : ℚ), (22 : ℚ)) ∈ sampleScoreMap ∧
    (∀ x ∈ sampleScoreMap, lexLe x.2 ("second.mkv", (4.5 : ℚ), (22 : ℚ)).2) ∧
    (∀ x ∈ sampleScoreMap, x.2.1 = (4.5 : ℚ) → x.2.2 ≤ (22 : ℚ)) :=
  best_entry_lex_maximal sampleScoreMap ("second.mkv", 4.5, 22)
    (by norm_num [bestEntry, sampleScoreMap, lexGt])

/-! ## C9: a missing path is reported and skipped, the run continues -/

/-- Membership in a Python-style dict insertion. -/
theorem mem_dictInsert (acc : List (String × ℚ × ℚ)) (k : String) (v : ℚ × ℚ)
    (x : String × ℚ × ℚ) : x ∈ dictInsert acc k v → x ∈ acc ∨ x = (k, v) := by
  induction acc with
  | nil =>
    intro hx
    exact Or.inr (List.mem_singleton.mp hx)
  | cons p rest ih =>
    intro hx
    obtain ⟨k', v'⟩ := p
    unfold dictInsert at hx
    by_cases hc : k' = k
    · rw [if_pos hc] at hx
      rcases List.mem_cons.mp hx with h | h
      · exact Or.inr h
      · exact Or.inl (List.mem_cons_of_mem _ h)
    · rw [if_neg hc] at hx
      rcases List.mem_cons.mp hx with h | h
      · exact Or.inl (h ▸ List.mem_cons_self _ _)
      · rcases ih h with h2 | h2
        · exact Or.inl (List.mem_cons_of_mem _ h2)
        · exact Or.inr h2

/-- Entries of a successful run come from the accumulator or from analyzed
on-disk inputs. -/
theorem runFilesAux_entries (fs : List FileInput)
    (acc m : List (String × ℚ × ℚ)) (h : runFilesAux acc fs = .ok m)
    (x : String × ℚ × ℚ) (hx : x ∈ m) :
    x ∈ acc ∨ ∃ g ∈ fs, g.path = x.1 ∧ g.onDisk = true := by
  induction fs generalizing acc with
  | nil =>
    unfold runFilesAux at h
    injection h with h
    exact Or.inl (h ▸ hx)
  | cons f fs ih =>
    unfold runFilesAux at h
    cases hf : analyzeFile f with
    | error e => rw [hf] at h; cases h
    | ok r =>
      cases r with
      | none =>
        rw [hf] at h
        rcases ih acc h with h2 | ⟨g, hg, hp, hd⟩
        · exact Or.inl h2
        · exact Or.inr ⟨g, List.mem_cons_of_mem f hg, hp, hd⟩
      | some v =>
        have hdisk : f.onDisk = true := by
          by_contra hn
          have hoff : f.onDisk = false := by
            cases hb : f.onDisk
            · rfl
            · exact absurd hb hn
          have hnone : analyzeFile f = .ok none := by
            simp [analyzeFile, hoff]
          rw [hnone] at hf
          simp at hf
        rw [hf] at h
        rcases ih (dictInsert acc f.path v) h with h2 | ⟨g, hg, hp, hd⟩
        · rcases mem_dictInsert acc f.path v x h2 with h3 | h3
          · exact Or.inl h3
          · exact Or.inr ⟨f, List.mem_cons_self f fs, by rw [h3], hdisk⟩
        · exact Or.inr ⟨g, List.mem_cons_of_mem f hg, hp, hd⟩

/-- C9: a nonexistent input path makes `analyze_file` return before any
scoring (recording nothing), the remaining files are processed exactly as if
the missing one were absent, and every recorded entry — hence every
participant in the best-file comparison — comes from an on-disk input. -/
theorem missing_file_skipped :
    (∀ (f : FileInput) (fs : List FileInput) (acc : List (String × ℚ × ℚ)),
      f.onDisk = false →
        analyzeFile f = .ok none ∧
        runFilesAux acc (f :: fs) = runFilesAux acc fs) ∧
    (∀ (fs : List FileInput) (m : List (String × ℚ × ℚ)),
      runFiles fs = .ok m →
      ∀ x ∈ m, ∃ g ∈ fs, g.path = x.1 ∧ g.onDisk = true) := by
  constructor
  · intro f fs acc hf
    have ha : analyzeFile f = .ok none := by simp [analyzeFile, hf]
    exact ⟨ha, by simp only [runFilesAux, ha]⟩
  · intro fs m h x hx
    rcases runFilesAux_entries fs [] m h x hx with h2 | h2
    · cases h2
    · exact h2

/-- Sample: a path that does not exist. -/
def sampleMissingFile : FileInput :=
  { path := "missing.mkv", onDisk := false, streams := [], format := {} }

/-- Sample: an on-disk file holding the Dolby-Vision video sample and the
eac3 audio sample. -/
def sampleGoodFile : FileInput :=
  { path := "good.mkv", onDisk := true,
    streams := [sampleDvStream, sampleEac3Stream], format := {} }

/-- Witness for C9: prepending a missing path leaves the run's result
unchanged. -/
theorem missing_file_skipped_witness :
    analyzeFile sampleMissingFile = .ok none ∧
    runFilesAux [] [sampleMissingFile, sampleGoodFile] =
      runFilesAux [] [sampleGoodFile] :=
  missing_file_skipped.1 sampleMissingFile [sampleGoodFile] [] rfl

/-! ## C10: no qualifying video stream aborts the whole run -/

/-- C10: for an existing file whose metadata holds no qualifying video
stream (none at all, or only attached pictures), the primary-stream
selection is `max` of an empty list — modelled as the `ValueError`-like
abort — so the file is neither scored nor skipped and the whole remaining
run is aborted. -/
theorem empty_video_streams_aborts (f : FileInput) (hdisk : f.onDisk = true)
    (hvs : videoStreamsOf f.streams = []) :
    maxByWidth (videoStreamsOf f.streams) = none ∧
    analyzeFile f = .error .emptyVideoMax ∧
    ∀ (acc : List (String × ℚ × ℚ)) (fs : List FileInput),
      runFilesAux acc (f :: fs) = .error .emptyVideoMax := by
  have hmax : maxByWidth (videoStreamsOf f.streams) = none := by
    rw [hvs]; rfl
  have hana : analyzeFile f = .error .emptyVideoMax := by
    simp [analyzeFile, hdisk, analyzeExisting, fileVideoResult, hmax, Except.map]
  exact ⟨hmax, hana, fun acc fs => by simp [runFilesAux, hana]⟩

/-- Sample: an on-disk file whose only video stream is an attached picture
(cover art) next to an audio track. -/
def sampleCoverArtFile : FileInput :=
  { path := "audio_with_cover.mka", onDisk := true,
    streams := [sampleEac3Stream,
      { codec_type := some "video", width := some 600,
        disposition := some ⟨some 1⟩ }],
    format := {} }

/-- Witness for C10: the cover-art-only file aborts the run even with more
files queued behind it. -/
theorem empty_video_streams_aborts_witness :
    runFilesAux [] [sampleCoverArtFile, sampleGoodFile] =
      .error .emptyVideoMax :=
  (empty_video_streams_aborts sampleCoverArtFile rfl (by decide)).2.2 []
    [sampleGoodFile]

/-! ## C2: which streams feed the HDR/DV flag of the video score -/

/-- C2 counterexample: two files share the same primary video stream (the
3840-wide SDR sample) and the same container format, yet score differently —
the narrower HDR10 stream present in only one of them turns the file-level
HDR flag on, so the flag fed to the §4.2 table is not the primary stream's
own classification. -/
theorem video_score_not_primary_only_counterexample :
    maxByWidth (videoStreamsOf [sampleSdrStream, sampleSmallHdrStream]) =
      maxByWidth (videoStreamsOf [sampleSdrStream]) ∧
    maxByWidth (videoStreamsOf [sampleSdrStream, sampleSmallHdrStream]) =
      some sampleSdrStream ∧
    isHdrStream sampleSdrStream = false ∧
    fileHdrFlag [sampleSdrStream, sampleSmallHdrStream] = true ∧
    fileVideoResult [sampleSdrStream, sampleSmallHdrStream] {} =
      some (5.0, 16, "REFERENCE QUALITY") ∧
    fileVideoResult [sampleSdrStream] {} = some (4.0, 16, "GOOD") := by
  have hmaxB : maxByWidth (videoStreamsOf [sampleSdrStream, sampleSmallHdrStream]) =
      some sampleSdrStream := by decide
  have hmaxA : maxByWidth (videoStreamsOf [sampleSdrStream]) =
      some sampleSdrStream := by decide
  have hhdrB : fileHdrFlag [sampleSdrStream, sampleSmallHdrStream] = true := by
    decide
  have hdvB : fileDvFlag [sampleSdrStream, sampleSmallHdrStream] = false := by
    decide
  have hhdrA : fileHdrFlag [sampleSdrStream] = false := by decide
  have hdvA : fileDvFlag [sampleSdrStream] = false := by decide
  refine ⟨hmaxB.trans hmaxA.symm, hmaxB, by decide, hhdrB, ?_, ?_⟩
  · rw [fileVideoResult, hmaxB, hhdrB, hdvB]
    simp only [Option.map_some']
    norm_num [compute_video_score, get_video_bitrate_mbps, sampleSdrStream]
  · rw [fileVideoResult, hmaxA, hhdrA, hdvA]
    simp only [Option.map_some']
    norm_num [compute_video_score, get_video_bitrate_mbps, sampleSdrStream]

/-- C2 (amended): the video score and verdict are `compute_video_score` of
the primary (widest qualifying, first on ties) video stream and the
container format together with the HDR and Dolby-Vision flags accumulated
over ALL qualifying video streams of the file — a function of exactly those
inputs, not of the primary stream alone. -/
theorem video_score_uses_aggregated_flags :
    (∀ (streams : List StreamRec) (fmt : FormatRec) (best : StreamRec),
      maxByWidth (videoStreamsOf streams) = some best →
      fileVideoResult streams fmt =
        some (compute_video_score best fmt (fileHdrFlag streams)
          (fileDvFlag streams))) ∧
    (∀ (s1 s2 : List StreamRec) (fmt : FormatRec),
      maxByWidth (videoStreamsOf s1) = maxByWidth (videoStreamsOf s2) →
      fileHdrFlag s1 = fileHdrFlag s2 →
      fileDvFlag s1 = fileDvFlag s2 →
      fileVideoResult s1 fmt = fileVideoResult s2 fmt) := by
  constructor
  · intro streams fmt best h
    rw [fileVideoResult, h, Option.map_some']
  · intro s1 s2 fmt h1 h2 h3
    rw [fileVideoResult, fileVideoResult, h1, h2, h3]

/-- Witness for C2 (amended) at the counterexample file: the score is
`compute_video_score` of the primary SDR stream with the aggregated flags. -/
theorem video_score_uses_aggregated_flags_witness :
    fileVideoResult [sampleSdrStream, sampleSmallHdrStream] {} =
      some (compute_video_score sampleSdrStream {}
        (fileHdrFlag [sampleSdrStream, sampleSmallHdrStream])
        (fileDvFlag [sampleSdrStream, sampleSmallHdrStream])) :=
  video_score_uses_aggregated_flags.1 [sampleSdrStream, sampleSmallHdrStream]
    {} sampleSdrStream (by decide)

end MediaQualityCheck
